import Mathlib

/-!
Shallow embedding of `gitlab_grabber.py`: a pipeline that lists all file
paths of a GitLab repository (paginated GraphQL), filters them against the
glob patterns of an external registry `LANGUAGE_DEPENDENCY_FILES`, fetches
raw text for the matches in batches of at most 100, parses each matched
file with the registered parser, and aggregates the dependencies per
language into Python sets.

Modelling conventions:
* Python dicts are association lists in insertion order (CPython ≥ 3.7
  iteration order); Python sets are duplicate-free `List String`
  accumulators built by `setInsert`.
* The external registry (module `dependency_parser_lib`) is a parameter:
  a list of `(language, list of (glob pattern, parser))` entries.
* A parser may raise; this is `ParserFn := String → Except Unit (List String)`
  with `Except.error` standing for a raised exception.
* The network is a parameter as well: the sequence of page responses the
  listing loop receives (one entry per request it issues, in order; the
  opaque cursor is absorbed by that positional convention), and a function
  from a path batch to the content response.  An HTTP status ≠ 200 is the
  `failure` constructor and turns into `Except.error` exactly where the
  Python code raises.  An exhausted response list is treated as a
  transport failure (the model must supply one response per request).
* `fnmatch.fnmatch` on a POSIX platform (where `os.path.normcase` is the
  identity) is embedded as `fnmatch` below, following the semantics of
  `fnmatch.translate`: `*` matches any (possibly empty) substring, `?` any
  single character, `[...]` a character class with `!` negation, ranges,
  a literal `]` first, and an unterminated `[` taken literally.
-/

/-- Python `set.add`: append the element unless it is already present.
Models set membership content; insertion order stands in for hash order. -/
def setInsert (s : List String) (x : String) : List String :=
  if x ∈ s then s else s ++ [x]

/-- Python `set.update(xs)`: fold `setInsert` over the new elements. -/
def setUpdate (s : List String) (xs : List String) : List String :=
  xs.foldl setInsert s

/-- Accumulator type of the pipeline: Python dict `language -> set of deps`. -/
abbrev DepDict := List (String × List String)

/-- Python `if lang not in d: d[lang] = set()` followed by
`d[lang].update(deps)` on an association-list dict. -/
def dictUpdate (d : DepDict) (lang : String) (deps : List String) : DepDict :=
  if d.any (fun e => e.1 = lang) then
    d.map (fun e => if e.1 = lang then (e.1, setUpdate e.2 deps) else e)
  else
    d ++ [(lang, setUpdate [] deps)]

/-- Python `result[p] = raw_text` on a dict: replace in place or append. -/
def dictSet (d : List (String × Option String)) (k : String) (v : Option String) :
    List (String × Option String) :=
  if d.any (fun e => e.1 = k) then
    d.map (fun e => if e.1 = k then (k, v) else e)
  else
    d ++ [(k, v)]

/-- A manifest parser from the external registry; `Except.error` models a
raised exception, `Except.ok` the returned collection of dependency names. -/
abbrev ParserFn := String → Except Unit (List String)

/-- The external `LANGUAGE_DEPENDENCY_FILES` registry:
language → dict of glob pattern → parser, in insertion order. -/
abbrev Registry := List (String × List (String × ParserFn))

/-! ### fnmatch -/

/-- Membership of a character in the body of a bracket class: `x-y` spans a
code-point range (an empty range matches nothing, as in `fnmatch.translate`),
any other character is a literal; a trailing `-` is a literal. -/
def classMatch : List Char → Char → Bool
  | [], _ => false
  | x :: '-' :: y :: rest, c =>
      (decide (x ≤ c) && decide (c ≤ y)) || classMatch rest c
  | x :: rest, c => (x == c) || classMatch rest c

/-- Scan up to the closing `]` of a bracket class, returning the body read
so far and the remainder of the pattern; `none` when the class is
unterminated. -/
def findClose : List Char → Option (List Char × List Char)
  | [] => none
  | ']' :: rest => some ([], rest)
  | c :: rest =>
    match findClose rest with
    | none => none
    | some (body, after) => some (c :: body, after)

/-- Scan a bracket-class body where a leading `]` counts as a literal
member, as `fnmatch.translate` does. -/
def scanBody : List Char → Option (List Char × List Char)
  | ']' :: rest =>
    match findClose rest with
    | none => none
    | some (body, after) => some (']' :: body, after)
  | l => findClose l

/-- Scan a full bracket class just after its `[`: an optional `!` negation,
then the body.  Returns `(negated, body, rest of pattern)`. -/
def scanClass : List Char → Option (Bool × List Char × List Char)
  | '!' :: rest =>
    match scanBody rest with
    | none => none
    | some (body, after) => some (true, body, after)
  | l =>
    match scanBody l with
    | none => none
    | some (body, after) => some (false, body, after)

/-- Fuelled glob matcher over character lists.  Every recursive call
shortens `pattern.length + name.length` by at least one, so fuel above that
sum never runs out; the fuel only makes the recursion structural. -/
def globMatch : Nat → List Char → List Char → Bool
  | 0, _, _ => false
  | _ + 1, [], s => s.isEmpty
  | fuel + 1, '*' :: p, s =>
      globMatch fuel p s ||
        (match s with
          | [] => false
          | _ :: s2 => globMatch fuel ('*' :: p) s2)
  | fuel + 1, '?' :: p, s =>
      (match s with
        | [] => false
        | _ :: s2 => globMatch fuel p s2)
  | fuel + 1, '[' :: p, s =>
      (match scanClass p with
        | none =>
          match s with
          | [] => false
          | c :: s2 => (c == '[') && globMatch fuel p s2
        | some (neg, body, after) =>
          match s with
          | [] => false
          | c :: s2 => (classMatch body c != neg) && globMatch fuel after s2)
  | fuel + 1, c :: p, s =>
      (match s with
        | [] => false
        | c2 :: s2 => (c == c2) && globMatch fuel p s2)

/-- Python `fnmatch.fnmatch(name, pat)` on POSIX (case-sensitive). -/
def fnmatch (name pat : String) : Bool :=
  globMatch (pat.data.length + name.data.length + 1) pat.data name.data

/-! ### Step 1: `fetch_all_paths_graphql` -/

/-- One response of the paths-listing GraphQL endpoint, as the Python code
discriminates it.
* `failure` is a non-200 status: the code raises.
* `noData` is a 200 whose body merely LACKS the data/project/repository
  keys, or holds a null or empty `tree`: every `.get(key, default)` of the
  chained lookup of data, project, repository and tree is still called on
  a dict, the empty-dict defaults survive, `tree_data` is falsy, and the
  code logs a warning and breaks.
* `nullBody` is a 200 whose body carries an explicit `null` at `data`,
  `project` or `repository` — the shape a GraphQL backend actually answers
  for an inaccessible or missing project, `"project": null` — or a null
  `blobs`, `pageInfo` or `nodes` inside a truthy tree.  Here `.get`
  returns the `None` value (the default applies only to a MISSING key), the
  next chained access is performed on `None`, and the code raises
  (`AttributeError`, or `TypeError` when iterating null nodes); the
  exception propagates out of the listing.
* `page nodes hasNext` is a normal page whose nodes carry an optional
  `path` field and whose `pageInfo.hasNextPage` is `hasNext` (a missing
  flag is falsy, i.e. `false`). -/
inductive HttpResp where
  | failure : HttpResp
  | noData : HttpResp
  | nullBody : HttpResp
  | page : List (Option String) → Bool → HttpResp
deriving DecidableEq

/-- Python loop `for blob in nodes: path = blob.get("path"); if path:
all_file_paths.append(path)` — keep only present, non-empty paths. -/
def extractPaths (nodes : List (Option String)) : List String :=
  nodes.filterMap (fun op =>
    match op with
    | none => none
    | some p => if p = "" then none else some p)

/-- The `while True` pagination loop of `fetch_all_paths_graphql`, with the
accumulated `all_file_paths` made explicit.  The response list supplies one
entry per issued request; running out of responses is a transport failure
of the model. -/
def collectPaths : List HttpResp → List String → Except Unit (List String)
  | [], _ => Except.error ()
  | HttpResp.failure :: _, _ => Except.error ()
  | HttpResp.noData :: _, acc => Except.ok acc
  | HttpResp.nullBody :: _, _ => Except.error ()
  | HttpResp.page nodes hasNext :: rest, acc =>
    let acc2 := acc ++ extractPaths nodes
    if hasNext then collectPaths rest acc2 else Except.ok acc2

/-- Python `fetch_all_paths_graphql`: list all file paths of the
repository by following pagination cursors until `hasNextPage` is falsy. -/
def fetch_all_paths_graphql (responses : List HttpResp) : Except Unit (List String) :=
  collectPaths responses []

/-! ### Step 2: `filter_paths_by_dependency_patterns` -/

/-- Python `filter_paths_by_dependency_patterns`: keep the paths matching
at least one glob pattern of the registry (patterns of all languages are
collected first, in registry order). -/
def filter_paths_by_dependency_patterns (reg : Registry) (all_paths : List String) :
    List String :=
  let all_patterns := (reg.map (fun e => e.2.map Prod.fst)).flatten
  all_paths.filter (fun fp => all_patterns.any (fun pat => fnmatch fp pat))

/-! ### Step 3: `fetch_raw_texts_graphql` -/

/-- One response of the raw-blob GraphQL endpoint: a non-200 status (the
code raises) or the list of returned blob nodes `(path, rawTextBlob)`,
where `rawTextBlob` is `none` for binary or oversized files. -/
inductive ContentResp where
  | failure : ContentResp
  | blobs : List (String × Option String) → ContentResp
deriving DecidableEq

/-- Python `fetch_raw_texts_graphql`: fetch `rawTextBlob` for one batch of
paths and build the `{file_path: rawText or None}` dict. -/
def fetch_raw_texts_graphql (content : List String → ContentResp)
    (paths_batch : List String) : Except Unit (List (String × Option String)) :=
  match content paths_batch with
  | ContentResp.failure => Except.error ()
  | ContentResp.blobs nodes =>
    Except.ok (nodes.foldl (fun d e => dictSet d e.1 e.2) [])

/-! ### Step 4: `parse_files_for_dependencies` -/

/-- Python `try: deps = parser_fn(text) ... except` block: a raised
exception leaves the accumulator unchanged, a falsy (empty) result as
well; otherwise the language bucket is created if needed and updated. -/
def tryParse (acc : DepDict) (lang : String) (parser : ParserFn) (text : String) :
    DepDict :=
  match parser text with
  | Except.error _ => acc
  | Except.ok deps => if deps.isEmpty then acc else dictUpdate acc lang deps

/-- Inner loops of `parse_files_for_dependencies` for one file: every
`(pattern, parser)` pair of every language whose pattern matches the path
is invoked on the text of the file. -/
def processFile (reg : Registry) (acc : DepDict) (path text : String) : DepDict :=
  reg.foldl
    (fun a e =>
      e.2.foldl
        (fun a2 pe => if fnmatch path pe.1 then tryParse a2 e.1 pe.2 text else a2)
        a)
    acc

/-- Python `parse_files_for_dependencies`: files whose text is falsy
(`None` or the empty string) are skipped; the others are dispatched to
every matching parser. -/
def parse_files_for_dependencies (reg : Registry)
    (file_contents : List (String × Option String)) : DepDict :=
  file_contents.foldl
    (fun acc e =>
      match e.2 with
      | none => acc
      | some t => if t = "" then acc else processFile reg acc e.1 t)
    []

/-! ### Step 5: `parse_dependencies_full_graphql` -/

/-- Fuelled chunking; fuel `l.length` suffices because each step consumes
at least one element. -/
def chunksGo : Nat → List String → List (List String)
  | 0, _ => []
  | _ + 1, [] => []
  | fuel + 1, l => l.take 100 :: chunksGo fuel (l.drop 100)

/-- The batching of step 3 of `parse_dependencies_full_graphql`:
`ceil(n/100)` contiguous slices `candidate_paths[i*100 : i*100+100]`. -/
def chunks100 (l : List String) : List (List String) :=
  chunksGo l.length l

/-- The network as the pipeline sees it: the listing responses in request
order and the content endpoint. -/
structure Backend where
  pages : List HttpResp
  content : List String → ContentResp

/-- The per-batch loop of `parse_dependencies_full_graphql`: fetch the raw
texts of each batch (a transport failure propagates, as the Python
exception does), parse them, and merge the batch result into the running
dict with `update`. -/
def runBatches (reg : Registry) (content : List String → ContentResp) :
    List (List String) → DepDict → Except Unit DepDict
  | [], acc => Except.ok acc
  | batch :: rest, acc =>
    match fetch_raw_texts_graphql content batch with
    | Except.error e => Except.error e
    | Except.ok path_to_text =>
      let batch_deps := parse_files_for_dependencies reg path_to_text
      runBatches reg content rest
        (batch_deps.foldl (fun a e => dictUpdate a e.1 e.2) acc)

/-- Python `parse_dependencies_full_graphql`, the harvest entrypoint:
list all paths, return `{}` when there are none, filter by the registry
patterns, return `{}` when nothing matches, then fetch and parse in
batches of at most 100. -/
def parse_dependencies_full_graphql (reg : Registry) (b : Backend) :
    Except Unit DepDict :=
  match fetch_all_paths_graphql b.pages with
  | Except.error e => Except.error e
  | Except.ok all_paths =>
    if all_paths.isEmpty then Except.ok []
    else
      let candidate_paths := filter_paths_by_dependency_patterns reg all_paths
      if candidate_paths.isEmpty then Except.ok []
      else runBatches reg b.content (chunks100 candidate_paths) []

/-! ### Helper lemmas -/

/-- Folding a step that preserves a predicate preserves it. -/
theorem foldl_preserve {α β : Type _} (P : β → Prop) (f : β → α → β)
    (hstep : ∀ b a, P b → P (f b a)) :
    ∀ (l : List α) (b : β), P b → P (l.foldl f b) := by
  intro l
  induction l with
  | nil => intro b hb; exact hb
  | cons x xs ih => intro b hb; exact ih (f b x) (hstep b x hb)

/-! ### Claims C6 and C10 -/

/-- Claim C6: manifest filtering is order-preserving (its output is a
sublist, i.e. an order-preserving subsequence, of its input) and
idempotent (filtering the filtered list again changes nothing). -/
theorem C6_filter_idempotent_sublist (reg : Registry) (l : List String) :
    (filter_paths_by_dependency_patterns reg l).Sublist l ∧
      filter_paths_by_dependency_patterns reg
          (filter_paths_by_dependency_patterns reg l)
        = filter_paths_by_dependency_patterns reg l := by
  unfold filter_paths_by_dependency_patterns
  exact ⟨List.filter_sublist l, by simp⟩

/-- Claim C10: a fetched file whose content is the empty string is
treated exactly like a file whose content is absent (`rawTextBlob` =
`None`): for every registry the extraction result is unchanged whether the
entry carries `some ""`, carries `none`, or is dropped altogether, so the
file contributes zero dependencies and no parser is consulted on it. -/
theorem C10_empty_content_skipped (reg : Registry)
    (pre post : List (String × Option String)) (p : String) :
    parse_files_for_dependencies reg (pre ++ (p, some "") :: post)
        = parse_files_for_dependencies reg (pre ++ (p, none) :: post) ∧
      parse_files_for_dependencies reg (pre ++ (p, some "") :: post)
        = parse_files_for_dependencies reg (pre ++ post) := by
  unfold parse_files_for_dependencies
  constructor <;> simp

/-! ### Claim C2 -/

/-- Replace the exceptions of a parser by an empty (zero dependencies)
result, leaving successful results untouched.  Substituting `calm f` for
`f` is exactly "the failure never happened: that invocation returned no
dependencies". -/
def calm (f : ParserFn) : ParserFn := fun t =>
  match f t with
  | Except.error _ => Except.ok []
  | Except.ok d => Except.ok d

/-- One `try/except` block behaves identically for a parser and its
calmed version: a raised exception and an empty result both leave the
accumulator unchanged. -/
theorem tryParse_calm (acc : DepDict) (lang : String) (f : ParserFn) (t : String) :
    tryParse acc lang (calm f) t = tryParse acc lang f t := by
  unfold tryParse calm
  cases f t <;> simp

/-- Dispatching one file is unchanged when one registered parser is
replaced by its calmed version. -/
theorem processFile_calm (reg1 reg2 : Registry) (lang : String)
    (ps1 ps2 : List (String × ParserFn)) (pat : String) (f : ParserFn)
    (acc : DepDict) (path t : String) :
    processFile (reg1 ++ (lang, ps1 ++ (pat, calm f) :: ps2) :: reg2) acc path t
      = processFile (reg1 ++ (lang, ps1 ++ (pat, f) :: ps2) :: reg2) acc path t := by
  unfold processFile
  rw [List.foldl_append, List.foldl_append, List.foldl_cons, List.foldl_cons]
  congr 1
  rw [List.foldl_append, List.foldl_append, List.foldl_cons, List.foldl_cons]
  congr 1
  by_cases h : fnmatch path pat <;> simp [h, tryParse_calm]

/-- Whole-extraction version of `processFile_calm`. -/
theorem parse_files_calm (reg1 reg2 : Registry) (lang : String)
    (ps1 ps2 : List (String × ParserFn)) (pat : String) (f : ParserFn)
    (fcs : List (String × Option String)) :
    parse_files_for_dependencies (reg1 ++ (lang, ps1 ++ (pat, calm f) :: ps2) :: reg2) fcs
      = parse_files_for_dependencies (reg1 ++ (lang, ps1 ++ (pat, f) :: ps2) :: reg2) fcs := by
  unfold parse_files_for_dependencies
  apply List.foldl_ext
  intro acc e _
  cases he : e.2 with
  | none => rfl
  | some t =>
    by_cases ht : t = ""
    · simp [ht]
    · simp [ht, processFile_calm]

/-- The pattern lists of the two registries of `parse_files_calm` agree,
so filtering agrees as well. -/
theorem filter_paths_calm (reg1 reg2 : Registry) (lang : String)
    (ps1 ps2 : List (String × ParserFn)) (pat : String) (f : ParserFn)
    (l : List String) :
    filter_paths_by_dependency_patterns
        (reg1 ++ (lang, ps1 ++ (pat, calm f) :: ps2) :: reg2) l
      = filter_paths_by_dependency_patterns
        (reg1 ++ (lang, ps1 ++ (pat, f) :: ps2) :: reg2) l := by
  unfold filter_paths_by_dependency_patterns
  simp

/-- The per-batch loop is unchanged when two registries make
`parse_files_for_dependencies` agree. -/
theorem runBatches_congr_reg (regA regB : Registry)
    (content : List String → ContentResp)
    (hpf : ∀ fcs, parse_files_for_dependencies regA fcs
      = parse_files_for_dependencies regB fcs) :
    ∀ (batches : List (List String)) (acc : DepDict),
      runBatches regA content batches acc = runBatches regB content batches acc := by
  intro batches
  induction batches with
  | nil => intro acc; rfl
  | cons bt rest ih =>
    intro acc
    unfold runBatches
    cases fetch_raw_texts_graphql content bt with
    | error e => rfl
    | ok path_to_text =>
      dsimp only
      rw [hpf path_to_text]
      exact ih _

/-- Claim C2: a parser that raises is indistinguishable from one that
returns zero dependencies for the raising invocations.  Replacing one
registered parser `f` by `calm f` (its exception-free version, returning
`[]` exactly where `f` raises) changes neither the extraction result on
any batch of file contents nor the result of the harvest entrypoint: the
failing invocation contributes zero dependencies, every other file and
pattern is processed exactly as without the failure, the run still
returns a well-formed mapping, and — since both sides are total functions
into the mapping type — the exception never propagates out of the
extraction step. -/
theorem C2_parser_failure_isolated (reg1 reg2 : Registry) (lang : String)
    (ps1 ps2 : List (String × ParserFn)) (pat : String) (f : ParserFn)
    (fcs : List (String × Option String)) (b : Backend) :
    parse_files_for_dependencies
        (reg1 ++ (lang, ps1 ++ (pat, f) :: ps2) :: reg2) fcs
      = parse_files_for_dependencies
        (reg1 ++ (lang, ps1 ++ (pat, calm f) :: ps2) :: reg2) fcs
    ∧ parse_dependencies_full_graphql
        (reg1 ++ (lang, ps1 ++ (pat, f) :: ps2) :: reg2) b
      = parse_dependencies_full_graphql
        (reg1 ++ (lang, ps1 ++ (pat, calm f) :: ps2) :: reg2) b := by
  refine ⟨(parse_files_calm reg1 reg2 lang ps1 ps2 pat f fcs).symm, ?_⟩
  unfold parse_dependencies_full_graphql
  cases fetch_all_paths_graphql b.pages with
  | error e => rfl
  | ok all_paths =>
    by_cases hemp : all_paths.isEmpty
    · simp [hemp]
    · simp only [hemp, Bool.false_eq_true, if_false, if_neg]
      rw [filter_paths_calm]
      by_cases hc :
        (filter_paths_by_dependency_patterns
          (reg1 ++ (lang, ps1 ++ (pat, f) :: ps2) :: reg2) all_paths).isEmpty
      · simp [hc]
      · simp only [hc, if_false, if_neg]
        exact (runBatches_congr_reg _ _ b.content
          (parse_files_calm reg1 reg2 lang ps1 ps2 pat f) _ _).symm

/-! ### Claim C3 -/

/-- Every language bucket of the dict is duplicate-free — the Python
set-semantics invariant. -/
def DictNodup (d : DepDict) : Prop := ∀ e ∈ d, e.2.Nodup

/-- Python `set.add` keeps the set duplicate-free. -/
theorem setInsert_nodup {s : List String} {x : String} (h : s.Nodup) :
    (setInsert s x).Nodup := by
  unfold setInsert
  by_cases hx : x ∈ s
  · simpa [hx] using h
  · simp only [hx, if_false, if_neg]
    rw [List.nodup_append]
    refine ⟨h, List.nodup_singleton x, ?_⟩
    intro a ha hax
    rw [List.mem_singleton] at hax
    exact hx (hax ▸ ha)

/-- Python `set.update` keeps the set duplicate-free. -/
theorem setUpdate_nodup {s : List String} (xs : List String) (h : s.Nodup) :
    (setUpdate s xs).Nodup := by
  unfold setUpdate
  exact foldl_preserve List.Nodup setInsert (fun b a hb => setInsert_nodup hb) xs s h

/-- Updating one bucket preserves the dict invariant. -/
theorem dictUpdate_nodup {d : DepDict} (lang : String) (deps : List String)
    (h : DictNodup d) : DictNodup (dictUpdate d lang deps) := by
  unfold dictUpdate
  by_cases hmem : d.any (fun e => e.1 = lang)
  · simp only [hmem, if_true, if_pos]
    intro e he
    rcases List.mem_map.mp he with ⟨e0, he0, rfl⟩
    by_cases h0 : e0.1 = lang
    · simpa [h0] using setUpdate_nodup deps (h e0 he0)
    · simpa [h0] using h e0 he0
  · simp only [hmem, if_false, if_neg]
    intro e he
    rcases List.mem_append.mp he with h1 | h1
    · exact h e h1
    · rcases List.mem_singleton.mp h1 with rfl
      exact setUpdate_nodup deps List.nodup_nil

/-- One `try/except` parse step preserves the dict invariant. -/
theorem tryParse_nodup {acc : DepDict} (lang : String) (f : ParserFn) (t : String)
    (h : DictNodup acc) : DictNodup (tryParse acc lang f t) := by
  unfold tryParse
  cases f t with
  | error e => exact h
  | ok deps =>
    by_cases hd : deps.isEmpty
    · simpa [hd] using h
    · simpa [hd] using dictUpdate_nodup lang deps h

/-- Dispatching one file preserves the dict invariant. -/
theorem processFile_nodup (reg : Registry) {acc : DepDict} (path t : String)
    (h : DictNodup acc) : DictNodup (processFile reg acc path t) := by
  unfold processFile
  apply foldl_preserve DictNodup _ _ reg acc h
  intro b a hb
  apply foldl_preserve DictNodup _ _ a.2 b hb
  intro b2 pe hb2
  by_cases hm : fnmatch path pe.1
  · simpa [hm] using tryParse_nodup a.1 pe.2 t hb2
  · simpa [hm] using hb2

/-- Extraction from any batch of file contents yields only duplicate-free
buckets. -/
theorem parse_files_nodup (reg : Registry) (fcs : List (String × Option String)) :
    DictNodup (parse_files_for_dependencies reg fcs) := by
  unfold parse_files_for_dependencies
  apply foldl_preserve DictNodup _ _ fcs [] (by intro e he; cases he)
  intro b e hb
  cases e.2 with
  | none => exact hb
  | some t =>
    by_cases ht : t = ""
    · simpa [ht] using hb
    · simpa [ht] using processFile_nodup reg e.1 t hb

/-- Merging a batch result into the accumulator preserves the invariant. -/
theorem merge_nodup {acc : DepDict} (batch_deps : DepDict) (h : DictNodup acc) :
    DictNodup (batch_deps.foldl (fun a e => dictUpdate a e.1 e.2) acc) := by
  apply foldl_preserve DictNodup _ _ batch_deps acc h
  intro b e hb
  exact dictUpdate_nodup e.1 e.2 hb

/-- The per-batch loop preserves the invariant up to its final result. -/
theorem runBatches_nodup (reg : Registry) (content : List String → ContentResp) :
    ∀ (batches : List (List String)) (acc : DepDict), DictNodup acc →
      ∀ d, runBatches reg content batches acc = Except.ok d → DictNodup d := by
  intro batches
  induction batches with
  | nil =>
    intro acc hacc d hd
    cases hd
    exact hacc
  | cons bt rest ih =>
    intro acc hacc d hd
    unfold runBatches at hd
    cases hfetch : fetch_raw_texts_graphql content bt with
    | error e => rw [hfetch] at hd; cases hd
    | ok path_to_text =>
      rw [hfetch] at hd
      exact ih _ (merge_nodup _ hacc) d hd

/-- Let-free unfolding of the harvest entrypoint, for case splitting. -/
theorem parse_deps_eq (reg : Registry) (b : Backend) :
    parse_dependencies_full_graphql reg b =
      match fetch_all_paths_graphql b.pages with
      | Except.error e => Except.error e
      | Except.ok all_paths =>
        if all_paths.isEmpty then Except.ok []
        else if (filter_paths_by_dependency_patterns reg all_paths).isEmpty then
          Except.ok []
        else
          runBatches reg b.content
            (chunks100 (filter_paths_by_dependency_patterns reg all_paths)) [] :=
  rfl

/-- Claim C3: whenever the harvest entrypoint returns normally, every
value of the returned language-to-dependencies mapping is a set with no
duplicate dependency names, even when the same name is contributed by
several files, patterns, or batches. -/
theorem C3_result_sets_nodup (reg : Registry) (b : Backend) (d : DepDict)
    (h : parse_dependencies_full_graphql reg b = Except.ok d) :
    DictNodup d := by
  rw [parse_deps_eq] at h
  split at h
  · cases h
  · split at h
    · cases h
      intro e he
      cases he
    · split at h
      · cases h
        intro e he
        cases he
      · exact runBatches_nodup reg b.content _ [] (by intro e he; cases he) d h

/-- Concrete run for the C3 witness: one page, two matching files, a
parser that reports the same name twice. -/
def w3reg : Registry :=
  [("python", [("*.txt", fun _ => Except.ok ["flask", "requests", "flask"])])]

/-- Concrete backend for the C3 witness. -/
def w3backend : Backend :=
  ⟨[HttpResp.page [some "a.txt", some "b.txt"] false],
    fun _ => ContentResp.blobs [("a.txt", some "x"), ("b.txt", some "y")]⟩

/-- Witness for C3: the duplicate submissions of `"flask"` (twice per file
and once more from the sibling file) collapse into a duplicate-free set. -/
theorem C3_witness : DictNodup [("python", ["flask", "requests"])] :=
  C3_result_sets_nodup w3reg w3backend [("python", ["flask", "requests"])] (by rfl)

/-! ### Claims C4 and C9 -/

/-- Extracting paths from nodes that all carry a non-empty path is the
identity. -/
theorem extractPaths_map_some (ps : List String) (h : ∀ p ∈ ps, p ≠ "") :
    extractPaths (ps.map some) = ps := by
  induction ps with
  | nil => rfl
  | cons x xs ih =>
    have hx : x ≠ "" := h x (by simp)
    have ihx := ih (fun p hp => h p (by simp [hp]))
    simp only [extractPaths, List.map_cons, List.filterMap_cons] at ihx ⊢
    simp [hx, ihx]

/-- Membership in the flatten of a tail. -/
theorem mem_flatten_tail {p : String} {ps : List String} {rest : List (List String)}
    (h : p ∈ rest.flatten) : p ∈ (ps :: rest).flatten := by
  rw [List.flatten_cons]
  exact List.mem_append_right ps h

/-- Membership in the flatten via the head block. -/
theorem mem_flatten_head {p : String} {ps : List String} {rest : List (List String)}
    (h : p ∈ ps) : p ∈ (ps :: rest).flatten := by
  rw [List.flatten_cons]
  exact List.mem_append_left _ h

/-- Consuming a block of pages whose continuation flag is set appends
their paths to the accumulator and goes on with the remaining responses. -/
theorem collectPaths_pages_true (tail : List HttpResp) :
    ∀ (pre : List (List String)), (∀ p ∈ pre.flatten, p ≠ "") →
      ∀ acc,
        collectPaths (pre.map (fun ps => HttpResp.page (ps.map some) true) ++ tail) acc
          = collectPaths tail (acc ++ pre.flatten) := by
  intro pre
  induction pre with
  | nil => intro _ acc; simp
  | cons ps rest ih =>
    intro hp acc
    simp only [List.map_cons, List.cons_append, collectPaths]
    rw [extractPaths_map_some ps (fun p hp2 => hp p (mem_flatten_head hp2))]
    simp only [if_true, List.append_eq]
    rw [ih (fun p hp2 => hp p (mem_flatten_tail hp2)) (acc ++ ps)]
    simp [List.append_assoc]

/-- A backend serving the given non-empty sequence of pages: every page
asserts a next page except the last one. -/
def mkPages : List (List String) → List HttpResp
  | [] => []
  | [ps] => [HttpResp.page (ps.map some) false]
  | ps :: rest => HttpResp.page (ps.map some) true :: mkPages rest

/-- The pagination loop over `mkPages` concatenates all pages after the
accumulator. -/
theorem collectPaths_mkPages :
    ∀ (pages : List (List String)), pages ≠ [] → (∀ p ∈ pages.flatten, p ≠ "") →
      ∀ acc, collectPaths (mkPages pages) acc = Except.ok (acc ++ pages.flatten) := by
  intro pages
  induction pages with
  | nil => intro hne; cases hne rfl
  | cons ps rest ih =>
    intro _ hp acc
    cases rest with
    | nil =>
      simp only [mkPages, collectPaths]
      rw [extractPaths_map_some ps (fun p hp2 => hp p (mem_flatten_head hp2))]
      simp
    | cons q qs =>
      simp only [mkPages, collectPaths]
      rw [extractPaths_map_some ps (fun p hp2 => hp p (mem_flatten_head hp2))]
      simp only [if_true, List.append_eq]
      rw [ih (by simp) (fun p hp2 => hp p (mem_flatten_tail hp2)) (acc ++ ps)]
      simp [List.append_assoc]

/-- Claim C4: for every backend serving `N` paths across successive pages
(continuation flag set on every page but the last), path listing requests
pages until the flag is false and returns the concatenation of all pages
in arrival order, whose length is `N`, the sum of the page sizes.  The
hypothesis that every served path is a non-empty string reflects that a
GraphQL `path` field is a non-empty string (the code drops falsy paths). -/
theorem C4_pagination_roundtrip (pages : List (List String)) (hne : pages ≠ [])
    (hp : ∀ p ∈ pages.flatten, p ≠ "") :
    fetch_all_paths_graphql (mkPages pages) = Except.ok pages.flatten ∧
      pages.flatten.length = (pages.map List.length).sum := by
  refine ⟨?_, by simp⟩
  unfold fetch_all_paths_graphql
  simpa using collectPaths_mkPages pages hne hp []

/-- Concrete pages for the C4 witness: 101 paths served as a full page of
100 plus a second page of 1. -/
def w4pages : List (List String) := [List.replicate 100 "a.txt", ["b.txt"]]

/-- Witness for C4: N = 101 is served as two pages of sizes 100 and 1 and
round-trips to a list of length 101. -/
theorem C4_witness :
    w4pages.map List.length = [100, 1] ∧
      (fetch_all_paths_graphql (mkPages w4pages) = Except.ok w4pages.flatten ∧
        w4pages.flatten.length = (w4pages.map List.length).sum) ∧
      w4pages.flatten.length = 101 :=
  ⟨by decide,
    C4_pagination_roundtrip w4pages (by simp [w4pages]) (by decide),
    by decide⟩

/-- Counterexample to claim C9 as stated: a listing page that succeeds at
the transport level but whose body carries an explicit null at
data/project/repository — the response a GraphQL backend actually gives
for an inaccessible or missing project — makes the chained `.get` calls
raise, so path listing DOES raise instead of stopping the loop, and the
harvest entrypoint surfaces an error instead of silently returning the
empty mapping. -/
theorem C9_counterexample :
    fetch_all_paths_graphql [HttpResp.nullBody] = Except.error () ∧
      parse_dependencies_full_graphql
          [("python", [("*.txt", fun _ => Except.ok ["flask"])])]
          ⟨[HttpResp.nullBody], fun _ => ContentResp.failure⟩
        = Except.error () :=
  ⟨rfl, rfl⟩

/-- Claim C9 as amended: only a transport-success page whose body merely
lacks the project/repository/tree keys (so the chained `.get` defaults
survive and yield a falsy tree) is handled softly — the pagination loop
stops without raising and returns the paths collected so far (possibly
none), and when that happens on the first page the harvest entrypoint
returns the empty mapping, whatever the content backend would answer.  A
body carrying an explicit null at data/project/repository (the actual
no-access/not-found response) instead raises inside the listing, and the
harvest run aborts with that error rather than returning a mapping. -/
theorem C9_amended_soft_stop_or_raise (pre : List (List String))
    (rest : List HttpResp) (reg : Registry) (c : List String → ContentResp)
    (hp : ∀ p ∈ pre.flatten, p ≠ "") :
    (fetch_all_paths_graphql
        (pre.map (fun ps => HttpResp.page (ps.map some) true)
          ++ HttpResp.noData :: rest)
      = Except.ok pre.flatten ∧
      (pre = [] →
        parse_dependencies_full_graphql reg ⟨HttpResp.noData :: rest, c⟩
          = Except.ok [])) ∧
      (fetch_all_paths_graphql
          (pre.map (fun ps => HttpResp.page (ps.map some) true)
            ++ HttpResp.nullBody :: rest)
        = Except.error () ∧
        parse_dependencies_full_graphql reg ⟨HttpResp.nullBody :: rest, c⟩
          = Except.error ()) := by
  refine ⟨⟨?_, ?_⟩, ?_, ?_⟩
  · unfold fetch_all_paths_graphql
    rw [collectPaths_pages_true (HttpResp.noData :: rest) pre hp []]
    simp [collectPaths]
  · intro hpre
    rfl
  · unfold fetch_all_paths_graphql
    rw [collectPaths_pages_true (HttpResp.nullBody :: rest) pre hp []]
    simp [collectPaths]
  · rfl

/-- Witness for the amended C9: a lone absent-keys response yields an
empty path list and an empty harvest result, while a lone null-project
response aborts both the listing and the harvest; the content backend
would fail if it were ever consulted. -/
theorem C9_amended_witness :
    (fetch_all_paths_graphql [HttpResp.noData] = Except.ok [] ∧
      parse_dependencies_full_graphql
          [("python", [("*.txt", fun _ => Except.ok ["flask"])])]
          ⟨[HttpResp.noData], fun _ => ContentResp.failure⟩
        = Except.ok []) ∧
      (fetch_all_paths_graphql [HttpResp.nullBody] = Except.error () ∧
        parse_dependencies_full_graphql
            [("python", [("*.txt", fun _ => Except.ok ["flask"])])]
            ⟨[HttpResp.nullBody], fun _ => ContentResp.failure⟩
          = Except.error ()) :=
  ⟨⟨(C9_amended_soft_stop_or_raise [] []
        [("python", [("*.txt", fun _ => Except.ok ["flask"])])]
        (fun _ => ContentResp.failure) (by simp)).1.1,
      (C9_amended_soft_stop_or_raise [] []
        [("python", [("*.txt", fun _ => Except.ok ["flask"])])]
        (fun _ => ContentResp.failure) (by simp)).1.2 rfl⟩,
    (C9_amended_soft_stop_or_raise [] []
      [("python", [("*.txt", fun _ => Except.ok ["flask"])])]
      (fun _ => ContentResp.failure) (by simp)).2⟩

/-! ### Claim C5 -/

/-- Claim C5: a file whose path matches glob patterns registered under two
different languages is parsed by the parsers of both languages, and both
language buckets receive its contributions — no deduplication or
prioritization across languages: the result holds both buckets exactly as
the two parsers produced them. -/
theorem C5_two_languages (l1 l2 path t p1 p2 : String) (f1 f2 : ParserFn)
    (d1 d2 : List String)
    (hl : l1 ≠ l2) (ht : t ≠ "")
    (hm1 : fnmatch path p1 = true) (hm2 : fnmatch path p2 = true)
    (hf1 : f1 t = Except.ok d1) (hd1 : d1 ≠ [])
    (hf2 : f2 t = Except.ok d2) (hd2 : d2 ≠ []) :
    parse_files_for_dependencies [(l1, [(p1, f1)]), (l2, [(p2, f2)])]
        [(path, some t)]
      = [(l1, setUpdate [] d1), (l2, setUpdate [] d2)] := by
  unfold parse_files_for_dependencies processFile tryParse dictUpdate
  simp only [List.foldl_cons, List.foldl_nil]
  simp [ht, hm1, hm2, hf1, hf2, hd1, hd2, hl, List.isEmpty_iff, Ne.symm hl]

/-- Witness for C5: `deps.txt` matches `*.txt` (python) and `deps.*` (go);
both buckets are filled from this one file. -/
theorem C5_witness :
    parse_files_for_dependencies
        [("python", [("*.txt", fun _ => Except.ok ["alpha"])]),
          ("go", [("deps.*", fun _ => Except.ok ["beta"])])]
        [("deps.txt", some "m")]
      = [("python", ["alpha"]), ("go", ["beta"])] :=
  C5_two_languages "python" "go" "deps.txt" "m" "*.txt" "deps.*"
    (fun _ => Except.ok ["alpha"]) (fun _ => Except.ok ["beta"])
    ["alpha"] ["beta"]
    (by decide) (by decide) (by decide) (by decide) rfl (by decide) rfl (by decide)

/-! ### Claims C7 and C8 -/

/-- On a successful listing, the entrypoint reduces to its three-way
branch on the listed paths. -/
theorem parse_deps_ok_branches (reg : Registry) (b : Backend) (allp : List String)
    (h : fetch_all_paths_graphql b.pages = Except.ok allp) :
    parse_dependencies_full_graphql reg b =
      if allp.isEmpty then Except.ok []
      else if (filter_paths_by_dependency_patterns reg allp).isEmpty then
        Except.ok []
      else
        runBatches reg b.content
          (chunks100 (filter_paths_by_dependency_patterns reg allp)) [] := by
  rw [parse_deps_eq, h]

/-- Every chunk produced by `chunksGo` holds at most 100 paths. -/
theorem chunksGo_le :
    ∀ (fuel : Nat) (l : List String), ∀ bt ∈ chunksGo fuel l, bt.length ≤ 100 := by
  intro fuel
  induction fuel with
  | zero => intro l bt hbt; cases hbt
  | succ fuel ih =>
    intro l bt hbt
    cases l with
    | nil => cases hbt
    | cons x xs =>
      rw [show chunksGo (fuel + 1) (x :: xs)
          = (x :: xs).take 100 :: chunksGo fuel ((x :: xs).drop 100) from rfl] at hbt
      rcases List.mem_cons.mp hbt with rfl | hmem
      · rw [List.length_take]
        exact min_le_left 100 _
      · exact ih _ bt hmem

/-- With enough fuel the chunks concatenate back to the input. -/
theorem chunksGo_flatten :
    ∀ (fuel : Nat) (l : List String), l.length ≤ fuel →
      (chunksGo fuel l).flatten = l := by
  intro fuel
  induction fuel with
  | zero =>
    intro l h
    cases l with
    | nil => rfl
    | cons x xs => simp at h
  | succ fuel ih =>
    intro l h
    cases l with
    | nil => rfl
    | cons x xs =>
      rw [show chunksGo (fuel + 1) (x :: xs)
          = (x :: xs).take 100 :: chunksGo fuel ((x :: xs).drop 100) from rfl]
      have hd : ((x :: xs).drop 100).length ≤ fuel := by
        simp only [List.length_drop, List.length_cons]
        simp only [List.length_cons] at h
        omega
      rw [List.flatten_cons, ih _ hd, List.take_append_drop]

/-- The batching of the entrypoint never builds a chunk above 100 paths. -/
theorem chunks100_le (l : List String) : ∀ bt ∈ chunks100 l, bt.length ≤ 100 :=
  chunksGo_le l.length l

/-- The chunks partition the candidate list: concatenated in order they
give back exactly the input, so every path lands in exactly one chunk. -/
theorem chunks100_flatten (l : List String) : (chunks100 l).flatten = l :=
  chunksGo_flatten l.length l (le_refl _)

/-- The per-batch loop only consults the content backend on the batches
it was given: two backends agreeing there give identical results. -/
theorem runBatches_content_congr (reg : Registry)
    (c1 c2 : List String → ContentResp) :
    ∀ (batches : List (List String)), (∀ bt ∈ batches, c1 bt = c2 bt) →
      ∀ acc, runBatches reg c1 batches acc = runBatches reg c2 batches acc := by
  intro batches
  induction batches with
  | nil => intro _ acc; rfl
  | cons bt rest ih =>
    intro hag acc
    unfold runBatches
    have hbt : fetch_raw_texts_graphql c1 bt = fetch_raw_texts_graphql c2 bt := by
      unfold fetch_raw_texts_graphql
      rw [hag bt (by simp)]
    rw [hbt]
    cases fetch_raw_texts_graphql c2 bt with
    | error e => rfl
    | ok ptt =>
      dsimp only
      exact ih (fun b2 hb2 => hag b2 (by simp [hb2])) _

/-- Claim C7: the pipeline splits the matched candidate paths into
contiguous batches of at most 100, every candidate appears in exactly one
batch (their in-order concatenation is the candidate list), and every
content-retrieval call is made with one such batch — the outcome of the run
depends on the content backend only through its answers on those batches,
so no retrieval call ever receives more than 100 paths. -/
theorem C7_batching (reg : Registry) (pages : List HttpResp) (allp : List String)
    (h1 : fetch_all_paths_graphql pages = Except.ok allp) :
    (∀ bt ∈ chunks100 (filter_paths_by_dependency_patterns reg allp),
        bt.length ≤ 100) ∧
      (chunks100 (filter_paths_by_dependency_patterns reg allp)).flatten
        = filter_paths_by_dependency_patterns reg allp ∧
      ∀ c1 c2 : List String → ContentResp,
        (∀ bt ∈ chunks100 (filter_paths_by_dependency_patterns reg allp),
          c1 bt = c2 bt) →
        parse_dependencies_full_graphql reg ⟨pages, c1⟩
          = parse_dependencies_full_graphql reg ⟨pages, c2⟩ := by
  refine ⟨chunks100_le _, chunks100_flatten _, ?_⟩
  intro c1 c2 hag
  rw [parse_deps_ok_branches reg ⟨pages, c1⟩ allp h1,
    parse_deps_ok_branches reg ⟨pages, c2⟩ allp h1]
  by_cases hemp : allp.isEmpty
  · rw [if_pos hemp, if_pos hemp]
  · rw [if_neg hemp, if_neg hemp]
    by_cases hc : (filter_paths_by_dependency_patterns reg allp).isEmpty
    · rw [if_pos hc, if_pos hc]
    · rw [if_neg hc, if_neg hc]
      exact runBatches_content_congr reg c1 c2 _ hag []

/-- Concrete registry for the C7 witness. -/
def w7reg : Registry := [("python", [("*.txt", fun _ => Except.ok ["flask"])])]

/-- Concrete listing responses for the C7 witness. -/
def w7pages : List HttpResp := [HttpResp.page [some "a.txt", some "b.md"] false]

/-- A content backend answering every batch. -/
def w7c1 : List String → ContentResp :=
  fun bt => ContentResp.blobs (bt.map (fun p => (p, some "t")))

/-- A content backend agreeing with `w7c1` on the actual batches but
failing on any other call (for instance an empty or oversized one). -/
def w7c2 : List String → ContentResp :=
  fun bt =>
    if bt = ["a.txt"] then ContentResp.blobs (bt.map (fun p => (p, some "t")))
    else ContentResp.failure

/-- Witness for C7: on a concrete run the chunks stay within 100 paths
and two content backends that agree on the chunks produce equal results. -/
theorem C7_witness :
    (∀ bt ∈ chunks100 (filter_paths_by_dependency_patterns w7reg ["a.txt", "b.md"]),
        bt.length ≤ 100) ∧
      parse_dependencies_full_graphql w7reg ⟨w7pages, w7c1⟩
        = parse_dependencies_full_graphql w7reg ⟨w7pages, w7c2⟩ :=
  ⟨(C7_batching w7reg w7pages ["a.txt", "b.md"] (by rfl)).1,
    (C7_batching w7reg w7pages ["a.txt", "b.md"] (by rfl)).2.2 w7c1 w7c2 (by decide)⟩

/-- Claim C8: when listing yields zero paths, or manifest filtering
retains zero paths, the harvest entrypoint returns the empty mapping; the
result is the same for every content backend — including one whose every
call fails, which would abort the run if it were consulted — so no
content-retrieval call is made at all. -/
theorem C8_empty_shortcircuit (reg : Registry) (pages : List HttpResp)
    (content : List String → ContentResp) (allp : List String)
    (h1 : fetch_all_paths_graphql pages = Except.ok allp)
    (h2 : allp = [] ∨ filter_paths_by_dependency_patterns reg allp = []) :
    parse_dependencies_full_graphql reg ⟨pages, content⟩ = Except.ok [] := by
  rw [parse_deps_ok_branches reg ⟨pages, content⟩ allp h1]
  rcases h2 with h2 | h2
  · simp [h2]
  · by_cases hemp : allp.isEmpty
    · rw [if_pos hemp]
    · rw [if_neg hemp, if_pos (by simp [h2])]

/-- Witness for C8: an empty repository and a repository with no matching
manifests both yield `{}`, with a content backend that fails on any call. -/
theorem C8_witness :
    parse_dependencies_full_graphql w7reg
        ⟨[HttpResp.page [] false], fun _ => ContentResp.failure⟩ = Except.ok [] ∧
      parse_dependencies_full_graphql w7reg
        ⟨[HttpResp.page [some "README.md"] false], fun _ => ContentResp.failure⟩
        = Except.ok [] :=
  ⟨C8_empty_shortcircuit w7reg [HttpResp.page [] false]
      (fun _ => ContentResp.failure) [] (by rfl) (Or.inl rfl),
    C8_empty_shortcircuit w7reg [HttpResp.page [some "README.md"] false]
      (fun _ => ContentResp.failure) ["README.md"] (by rfl) (Or.inr (by rfl))⟩

/-! ### Claim C1 -/

/-- After any block of batches whose content fetch succeeds, a batch whose
fetch fails makes the per-batch loop fail as a whole: the accumulated
dependencies are discarded and the error propagates. -/
theorem runBatches_failfast (reg : Registry) (content : List String → ContentResp) :
    ∀ (pre : List (List String)) (bad : List String) (post : List (List String)),
      (∀ bt ∈ pre, content bt ≠ ContentResp.failure) →
      content bad = ContentResp.failure →
      ∀ acc, runBatches reg content (pre ++ bad :: post) acc = Except.error () := by
  intro pre
  induction pre with
  | nil =>
    intro bad post _ hbad acc
    simp only [List.nil_append]
    unfold runBatches fetch_raw_texts_graphql
    rw [hbad]
  | cons bt pre2 ih =>
    intro bad post hpre hbad acc
    simp only [List.cons_append]
    unfold runBatches
    cases hc : content bt with
    | failure => exact absurd hc (hpre bt (by simp))
    | blobs nodes =>
      unfold fetch_raw_texts_graphql
      rw [hc]
      dsimp only
      exact ih bad post (fun b2 hb2 => hpre b2 (by simp [hb2])) hbad _

/-- Registry for the C1 counterexample: one python pattern, a parser
returning one dependency. -/
def c1reg : Registry := [("python", [("*.txt", fun _ => Except.ok ["flask"])])]

/-- 101 matching paths, so the pipeline forms two batches (100 + 1). -/
def c1paths : List String := List.replicate 101 "r.txt"

/-- One listing page serving all 101 paths. -/
def c1pages : List HttpResp := [HttpResp.page (c1paths.map some) false]

/-- A content backend whose fetch succeeds on the first batch (size 100)
and fails on the second batch (size 1). -/
def c1contentBad : List String → ContentResp :=
  fun batch =>
    if batch.length = 100 then
      ContentResp.blobs (batch.map (fun p => (p, some "flask")))
    else ContentResp.failure

/-- The same backend without the failure. -/
def c1contentGood : List String → ContentResp :=
  fun batch => ContentResp.blobs (batch.map (fun p => (p, some "flask")))

set_option maxRecDepth 40000 in
/-- Counterexample to claim C1 as stated: with 101 candidate paths the
first batch of 100 is fetched and parsed
successfully, but the transport failure of the second batch is NOT
isolated to that batch: the harvest entrypoint propagates the exception
and returns no mapping at all, discarding the dependencies already
extracted from the first batch (the same run with no failure would have
returned the mapping python ↦ set containing flask). -/
theorem C1_counterexample :
    parse_dependencies_full_graphql c1reg ⟨c1pages, c1contentBad⟩
        = Except.error () ∧
      parse_dependencies_full_graphql c1reg ⟨c1pages, c1contentGood⟩
        = Except.ok [("python", ["flask"])] := by
  constructor <;> rfl

/-- Claim C1 as amended: a content-batch transport failure is fail-fast,
not fail-soft.  If every batch before some batch `bad` fetches
successfully and the fetch of `bad` fails, the harvest entrypoint raises
(returns the transport error), keeping none of the dependencies extracted
from the earlier batches. -/
theorem C1_amended_failfast (reg : Registry) (b : Backend) (allp : List String)
    (pre post : List (List String)) (bad : List String)
    (h1 : fetch_all_paths_graphql b.pages = Except.ok allp)
    (h2 : allp.isEmpty = false)
    (h3 : (filter_paths_by_dependency_patterns reg allp).isEmpty = false)
    (h4 : chunks100 (filter_paths_by_dependency_patterns reg allp)
      = pre ++ bad :: post)
    (h5 : ∀ bt ∈ pre, b.content bt ≠ ContentResp.failure)
    (h6 : b.content bad = ContentResp.failure) :
    parse_dependencies_full_graphql reg b = Except.error () := by
  rw [parse_deps_ok_branches reg b allp h1, if_neg (by simp [h2]),
    if_neg (by simp [h3]), h4]
  exact runBatches_failfast reg b.content pre bad post h5 h6 []

set_option maxRecDepth 40000 in
/-- Witness for the amended C1 at the concrete counterexample input: the
failure of the second batch aborts the whole run. -/
theorem C1_amended_witness :
    parse_dependencies_full_graphql c1reg ⟨c1pages, c1contentBad⟩
      = Except.error () :=
  C1_amended_failfast c1reg ⟨c1pages, c1contentBad⟩ c1paths
    [List.replicate 100 "r.txt"] [] ["r.txt"]
    (by rfl) (by rfl) (by rfl) (by rfl)
    (by decide) (by rfl)
